/-
Verification of the Admin_db change-management frontend/backend against its
natural-language specification.

The TypeScript sources are shallowly embedded here:
  * JS primitive values become the `JsValue` inductive (numbers as ℚ);
    JS objects become ordered association lists (`JsRecord`), with `none`
    playing the role of `undefined` when a property is absent.
  * `ApprovalService.generateDiff` (frontend/src/services/approval.service.ts)
    and the `generateDiff` closure of `DiffViewer`
    (frontend/src/components/approvals/DiffViewer.tsx) become
    `asGenerateDiff` and `dvGenerateDiff`.
  * `DataService.sanitizeRecordData` / `validateRecordData`,
    `QueryService.validateParameter` / `formatSqlForDisplay`,
    `EnvironmentService.isValidEnvironment` and the `switchEnvironment`
    callback of `useEnvironment` are embedded under their source names.
  * The backend Approval Engine and query executor are not part of the
    sources; where a claim depends on them they are modelled from the
    specification (definitions marked "Modelled from the spec").
-/
import Mathlib

set_option autoImplicit false

namespace AdminDb

/-! ## JS values and objects -/

/-- A JS primitive value as it occurs in the row data handled by the app:
`null`, booleans, numbers (embedded as ℚ; the data never contains NaN or
infinities) and strings. -/
inductive JsValue where
  | vNull : JsValue
  | vBool : Bool → JsValue
  | vNum : ℚ → JsValue
  | vStr : String → JsValue
deriving DecidableEq, Repr

/-- A JS object, as an insertion-ordered association list with distinct keys
(the order is the `Object.entries` / `Object.keys` iteration order). -/
abbrev JsRecord := List (String × JsValue)

/-- Property access `obj[key]`: `none` models the JS `undefined` result.
Keys of a JS object are distinct, so taking the first binding is exact. -/
def lookup : JsRecord → String → Option JsValue
  | [], _ => none
  | kv :: r, k => if kv.1 == k then some kv.2 else lookup r k

/-- The keys of an object, in iteration order (JS `Object.keys`). -/
def keysOf (r : JsRecord) : List String := r.map (fun kv => kv.1)

/-- Order-preserving deduplication keeping first occurrences: the iteration
order of `new Set([...])` in JS. -/
def dedupAux (seen : List String) : List String → List String
  | [] => []
  | k :: ks =>
    if seen.contains k then dedupAux seen ks
    else k :: dedupAux (k :: seen) ks

/-- `new Set([...xs])` as an ordered list of the distinct elements. -/
def dedupFirst (ks : List String) : List String := dedupAux [] ks

/-! ## The two diff implementations -/

/-- The classification tags used by the diff views.  The
`ApprovalService.generateDiff` variant never emits `unchanged`; the
`DiffViewer` variant may. -/
inductive DiffType where
  | added : DiffType
  | removed : DiffType
  | changed : DiffType
  | unchanged : DiffType
deriving DecidableEq, Repr

/-- One entry of a computed diff.  `oldValue`/`newValue` are `Option JsValue`
because the sources sometimes store the JS `undefined` (`none`) and sometimes
an explicit `null` (`some .vNull`) in these slots. -/
structure DiffEntry where
  field : String
  oldValue : Option JsValue
  newValue : Option JsValue
  type : DiffType
deriving DecidableEq, Repr

/-- The per-key entry pushed by the UPDATE branch of
`ApprovalService.generateDiff`, lines 141-153: pushed only when
`oldValue !== newValue`, with the type chosen by the nested conditional. -/
def asUpdateEntry (od nd : JsRecord) (k : String) : Option DiffEntry :=
  let oldValue := lookup od k
  let newValue := lookup nd k
  if oldValue = newValue then none
  else some
    { field := k
      oldValue := oldValue
      newValue := newValue
      type :=
        if oldValue = none then .added
        else if newValue = none then .removed
        else .changed }

/-- `ApprovalService.generateDiff` (approval.service.ts lines 114-157).
`none` for `oldData`/`newData` models a JS `null`/`undefined` argument; a
present object — even an empty one — is truthy. -/
def asGenerateDiff (oldData newData : Option JsRecord) : List DiffEntry :=
  match oldData, newData with
  | none, some nd =>
    nd.map (fun kv => { field := kv.1, oldValue := some .vNull, newValue := some kv.2, type := .added })
  | some od, none =>
    od.map (fun kv => { field := kv.1, oldValue := some kv.2, newValue := some .vNull, type := .removed })
  | some od, some nd =>
    (dedupFirst (keysOf od ++ keysOf nd)).filterMap (asUpdateEntry od nd)
  | none, none => []

/-- The operation tag of a change request (types/index.ts `OperationType`). -/
inductive OperationType where
  | CREATE : OperationType
  | UPDATE : OperationType
  | DELETE : OperationType
deriving DecidableEq, Repr

/-- The per-key entry pushed by the UPDATE branch of the `DiffViewer`
`generateDiff` (DiffViewer.tsx lines 75-88): the four-way conditional always
pushes an entry, with `unchanged` for equal values. -/
def dvUpdateEntry (od nd : JsRecord) (k : String) : DiffEntry :=
  let oldValue := lookup od k
  let newValue := lookup nd k
  if oldValue = none ∧ newValue ≠ none then
    { field := k, oldValue := oldValue, newValue := newValue, type := .added }
  else if oldValue ≠ none ∧ newValue = none then
    { field := k, oldValue := oldValue, newValue := newValue, type := .removed }
  else if oldValue ≠ newValue then
    { field := k, oldValue := oldValue, newValue := newValue, type := .changed }
  else
    { field := k, oldValue := oldValue, newValue := newValue, type := .unchanged }

/-- The `generateDiff` closure of `DiffViewer` (DiffViewer.tsx lines 40-92),
with the `operation` prop made explicit. -/
def dvGenerateDiff (operation : OperationType) (oldData newData : Option JsRecord) :
    List DiffEntry :=
  match operation with
  | .CREATE =>
    match newData with
    | some nd =>
      nd.map (fun kv => { field := kv.1, oldValue := some .vNull, newValue := some kv.2, type := .added })
    | none => []
  | .DELETE =>
    match oldData with
    | some od =>
      od.map (fun kv => { field := kv.1, oldValue := some kv.2, newValue := some .vNull, type := .removed })
    | none => []
  | .UPDATE =>
    match oldData, newData with
    | some od, some nd => (dedupFirst (keysOf od ++ keysOf nd)).map (dvUpdateEntry od nd)
    | _, _ => []

/-! ## Character-list string helpers

All string manipulation is done on `List Char` with structural recursion so
that every definition evaluates inside the kernel. -/

/-- Whether `pat` is a prefix of the second list (character-wise). -/
def startsWithL : List Char → List Char → Bool
  | [], _ => true
  | _ :: _, [] => false
  | a :: as, b :: bs => a == b && startsWithL as bs

/-- Whether `pat` occurs as a contiguous substring. -/
def containsSubL (pat : List Char) : List Char → Bool
  | [] => pat.isEmpty
  | c :: cs => startsWithL pat (c :: cs) || containsSubL pat cs

/-- JS `s.includes(sub)`. -/
def includesStr (s sub : String) : Bool := containsSubL sub.toList s.toList

/-- JS `s.toLowerCase()` (restricted to the ASCII mapping of `Char.toLower`,
which covers every key name occurring in the application). -/
def lowerStr (s : String) : String := String.mk (s.toList.map Char.toLower)

/-- JS `String.prototype.trim`: strip leading and trailing whitespace. -/
def trimL (cs : List Char) : List Char :=
  ((cs.dropWhile Char.isWhitespace).reverse.dropWhile Char.isWhitespace).reverse

/-- The numeric value of a list of decimal digits. -/
def digitsVal (cs : List Char) : ℕ :=
  cs.foldl (fun a c => a * 10 + (c.toNat - 48)) 0

/-- One global-replace pass, with fuel bounding the number of steps; each
step consumes at least one character, so fuel equal to the length of the
input is enough. -/
def replaceFuel (pat repl : List Char) : ℕ → List Char → List Char
  | 0, cs => cs
  | _ + 1, [] => []
  | n + 1, c :: cs =>
    if startsWithL pat (c :: cs) && !pat.isEmpty then
      repl ++ replaceFuel pat repl n (List.drop (pat.length - 1) cs)
    else c :: replaceFuel pat repl n cs

/-- JS `s.replace(new RegExp(pat, g), repl)` for a literal pattern:
non-overlapping left-to-right replacement of every occurrence. -/
def replaceAll (s pat repl : String) : String :=
  String.mk (replaceFuel pat.toList repl.toList s.length s.toList)

/-! ## JS numeric coercions

The JS builtins `Number`, `parseInt` and `parseFloat` are modelled on the
decimal forms the application actually feeds them (optional sign, digits,
optional fractional part); hexadecimal, exponent and Infinity forms are
omitted.  `none` models the `NaN` result. -/

/-- Truncation toward zero, as `parseInt` applied to the decimal rendering
of a number. -/
def jsTrunc (q : ℚ) : ℤ := q.num.tdiv q.den

/-- Shared digits-with-optional-fraction parser.  `strict` requires the
whole input to be consumed (the `Number` coercion); otherwise trailing
garbage is ignored (the `parseFloat` prefix parse). -/
def parseDecimalCore (strict : Bool) (cs : List Char) : Option ℚ :=
  let ip := cs.takeWhile Char.isDigit
  let rest := cs.dropWhile Char.isDigit
  match rest with
  | [] => if ip.isEmpty then none else some (digitsVal ip : ℚ)
  | '.' :: fp =>
    let f := if strict then fp else fp.takeWhile Char.isDigit
    if (!strict || fp.all Char.isDigit) && !(ip.isEmpty && f.isEmpty) then
      if f.isEmpty then some (digitsVal ip : ℚ)
      else some ((digitsVal ip : ℚ) + (digitsVal f : ℚ) / (10 : ℚ) ^ f.length)
    else none
  | _ => if strict || ip.isEmpty then none else some (digitsVal ip : ℚ)

/-- Sign handling shared by the string number parsers. -/
def parseSignedCore (strict : Bool) (cs : List Char) : Option ℚ :=
  match cs with
  | '-' :: rest => (parseDecimalCore strict rest).map (fun q => -q)
  | '+' :: rest => parseDecimalCore strict rest
  | _ => parseDecimalCore strict cs

/-- JS `Number(s)` on a string: trims, maps the empty string to `0`, parses
a full signed decimal literal, `none` (NaN) otherwise. -/
def jsNumberOfString (s : String) : Option ℚ :=
  let t := trimL s.toList
  if t.isEmpty then some 0 else parseSignedCore true t

/-- JS `Number(value)` on a primitive value. -/
def jsNumber : JsValue → Option ℚ
  | .vNull => some 0
  | .vBool b => some (if b then 1 else 0)
  | .vNum q => some q
  | .vStr s => jsNumberOfString s

/-- JS `parseFloat(s)`: trims, parses the longest signed decimal prefix. -/
def jsParseFloatStr (s : String) : Option ℚ :=
  parseSignedCore false (trimL s.toList)

/-- JS `parseFloat(value)`: numbers parse to themselves, strings through the
prefix parser, anything else is NaN. -/
def jsParseFloat : JsValue → Option ℚ
  | .vNum q => some q
  | .vStr s => jsParseFloatStr s
  | _ => none

/-- JS `parseInt(s)` (radix 10): trims, then the longest signed digit
prefix. -/
def jsParseIntStr (s : String) : Option ℤ :=
  match trimL s.toList with
  | '-' :: rest =>
    let ds := rest.takeWhile Char.isDigit
    if ds.isEmpty then none else some (-(digitsVal ds : ℤ))
  | '+' :: rest =>
    let ds := rest.takeWhile Char.isDigit
    if ds.isEmpty then none else some (digitsVal ds : ℤ)
  | cs =>
    let ds := cs.takeWhile Char.isDigit
    if ds.isEmpty then none else some (digitsVal ds : ℤ)

/-- JS `parseInt(value)`: a number is rendered and re-parsed, which for the
decimal renderings at hand truncates toward zero; strings go through the
digit-prefix parser; booleans and null give NaN. -/
def jsParseInt : JsValue → Option ℤ
  | .vNum q => some (jsTrunc q)
  | .vStr s => jsParseIntStr s
  | _ => none

/-! ## DataService (src/unnamed/part_008) -/

/-- Whether the lowercased key contains "price" or "id" — the numeric-field
heuristic of `DataService.sanitizeRecordData`. -/
def priceOrId (k : String) : Bool :=
  includesStr (lowerStr k) "price" || includesStr (lowerStr k) "id"

/-- The per-entry transformation inside `DataService.sanitizeRecordData`
(part_008 lines 102-115): `none` drops the entry. -/
def sanitizeValue (k : String) (v : JsValue) : Option JsValue :=
  if v = .vStr "" ∨ v = .vNull then none
  else
    match v with
    | .vStr s =>
      match jsNumberOfString s with
      | some q => if priceOrId k then some (.vNum q) else some (.vStr s)
      | none => some (.vStr s)
    | w => some w

/-- `DataService.sanitizeRecordData` (part_008 lines 99-118). -/
def sanitizeRecordData (data : JsRecord) : JsRecord :=
  data.filterMap (fun kv => (sanitizeValue kv.1 kv.2).map (fun w => (kv.1, w)))

/-- JS falsiness `!x` of a possibly-absent value (`none` = `undefined`).
The source guard is `!data[field] || data[field] === ""`, which is exactly
falsiness since the empty string is already falsy. -/
def isFalsy : Option JsValue → Bool
  | none => true
  | some .vNull => true
  | some (.vBool b) => !b
  | some (.vNum q) => q == 0
  | some (.vStr s) => s == ""

/-- The email regex `^[^\s@]+@[^\s@]+\.[^\s@]+$` of
`DataService.validateRecordData`, expressed by decomposition: a nonempty
local part without whitespace or `@`, one `@`, and a domain part without
whitespace or `@` containing a dot strictly inside it. -/
def emailOkChar (c : Char) : Bool := !c.isWhitespace && c != '@'

/-- Split at the first occurrence of a character. -/
def splitAtChar (c : Char) : List Char → List Char × Option (List Char)
  | [] => ([], none)
  | x :: xs =>
    if x == c then ([], some xs)
    else
      let r := splitAtChar c xs
      (x :: r.1, r.2)

/-- Test of the email regex above. -/
def testEmail (s : String) : Bool :=
  match splitAtChar '@' s.toList with
  | (lp, some dom) =>
    !lp.isEmpty && lp.all emailOkChar && !dom.isEmpty && dom.all emailOkChar &&
      ((dom.drop 1).dropLast.contains '.')
  | _ => false

/-- The data-type validation errors one entry contributes in
`DataService.validateRecordData` (part_008 lines 73-88): an email check for
string values under keys containing "email", and a numeric check for keys
containing "price".  The outer guard skips `null` values. -/
def typeErrorsFor (k : String) (v : JsValue) : List String :=
  if v = .vNull then []
  else
    (match v with
     | .vStr s =>
       if includesStr (lowerStr k) "email" && !testEmail s then
         [k ++ " must be a valid email address"]
       else []
     | _ => []) ++
    (if includesStr (lowerStr k) "price" && (jsNumber v).isNone then
       [k ++ " must be a valid number"]
     else [])

/-- `DataService.validateRecordData` (part_008 lines 62-94): required-field
errors first (a field fails when its value is falsy), then per-entry type
errors; `isValid` is emptiness of the collected error list. -/
def validateRecordData (data : JsRecord) (requiredFields : List String) :
    Bool × List String :=
  let reqErrors := requiredFields.filterMap (fun f =>
    if isFalsy (lookup data f) then some (f ++ " is required") else none)
  let errors := reqErrors ++ data.flatMap (fun kv => typeErrorsFor kv.1 kv.2)
  (errors.isEmpty, errors)

/-! ## QueryService (frontend/src/services/query.service.ts) -/

/-- The parameter types of predefined queries (types/query.ts). -/
inductive ParamType where
  | integer : ParamType
  | decimal : ParamType
  | text : ParamType
  | select : ParamType
  | date : ParamType
deriving DecidableEq, Repr

/-- A predefined-query parameter definition as loaded from queries.json.
`none` models an absent (undefined) property; `dflt` is the `default`
property, which may itself be the JS `null` (`some .vNull`). -/
structure QueryParam where
  name : String
  ptype : ParamType
  required : Bool
  dflt : Option JsValue
  min : Option ℚ
  max : Option ℚ
  maxLength : Option ℕ
  options : Option (List String)
deriving DecidableEq, Repr

/-- The `min` branch of the numeric checks in
`QueryService.validateParameter`. -/
def minCheck (x : ℚ) (mn : Option ℚ) : Option String :=
  match mn with
  | some m => if x < m then some ("Must be at least " ++ toString m) else none
  | none => none

/-- The `max` branch of the numeric checks in
`QueryService.validateParameter`. -/
def maxCheck (x : ℚ) (mx : Option ℚ) : Option String :=
  match mx with
  | some m => if x > m then some ("Must be at most " ++ toString m) else none
  | none => none

/-- The type-directed switch of `QueryService.validateParameter`
(query.service.ts lines 40-81), applied to a value that already passed the
emptiness test. -/
def validateParamValue (p : QueryParam) (v : JsValue) : Option String :=
  match p.ptype with
  | .integer =>
    match jsParseInt v with
    | none => some "Must be a valid integer"
    | some n =>
      match minCheck (n : ℚ) p.min with
      | some e => some e
      | none => maxCheck (n : ℚ) p.max
  | .decimal =>
    match jsParseFloat v with
    | none => some "Must be a valid number"
    | some x =>
      match minCheck x p.min with
      | some e => some e
      | none => maxCheck x p.max
  | .text =>
    match p.maxLength, v with
    | some l, .vStr s =>
      if s.length > l then some ("Must be at most " ++ toString l ++ " characters")
      else none
    | _, _ => none
  | .select =>
    match p.options with
    | some opts =>
      match v with
      | .vStr s =>
        if opts.contains s then none
        else some ("Must be one of: " ++ String.intercalate ", " opts)
      | _ => some ("Must be one of: " ++ String.intercalate ", " opts)
    | none => none
  | .date => none

/-- `QueryService.validateParameter` (query.service.ts lines 32-84):
`null`, `undefined` and the empty string short-circuit into the
required-field test; every other value goes through the typed checks.
A `none` result means the value is accepted. -/
def validateParameter (p : QueryParam) (value : Option JsValue) : Option String :=
  if value = none ∨ value = some .vNull ∨ value = some (.vStr "") then
    if p.required && (p.dflt == some JsValue.vNull) then
      some (p.name ++ " is required")
    else none
  else
    match value with
    | some v => validateParamValue p v
    | none => none

/-- The error collection of `QueryExecutor.validateParameters`
(src/unnamed/part_002 lines 88-102): each failing parameter contributes an
entry keyed by the parameter name. -/
def validateParameters (ps : List QueryParam) (vals : String → Option JsValue) :
    List (String × String) :=
  ps.filterMap (fun p => (validateParameter p (vals p.name)).map (fun e => (p.name, e)))

/-! ## EnvironmentService and the useEnvironment hook -/

/-- `Object.values(Environment)` (types/index.ts lines 27-32). -/
def environmentValues : List String := ["dev", "test", "stage", "prod"]

/-- `EnvironmentService.isValidEnvironment` (src/unnamed/part_009 lines
50-52). -/
def isValidEnvironment (env : String) : Bool := environmentValues.contains env

/-- Outcome of the `switchEnvironment` callback of `useEnvironment`:
whether a switch request was sent to the server, the resulting current
environment, and the error raised, if any. -/
structure SwitchOutcome where
  requestIssued : Bool
  currentEnvironment : String
  errorMsg : Option String
deriving DecidableEq, Repr

/-- The `switchEnvironment` callback of `useEnvironment`
(useEnvironment.ts lines 62-83): an invalid name throws before any request
is issued and leaves the current environment untouched; a valid name issues
the switch request and, on the success path modelled here, updates the
current environment. -/
def switchEnvironment (current env : String) : SwitchOutcome :=
  if isValidEnvironment env then
    ⟨true, env, none⟩
  else
    ⟨false, current, some ("Invalid environment: " ++ env)⟩

/-! ## The Approval Engine state machine

The backend Approval Engine is not among the sources (src/backend contains
only the predefined-query definitions; the frontend `ApprovalService` merely
posts to its endpoints).  It is therefore modelled from the specification,
sections 4.4 and 5. -/

/-- `ChangeRequestStatus` (types/index.ts lines 86-90). -/
inductive CRStatus where
  | PENDING : CRStatus
  | APPROVED : CRStatus
  | REJECTED : CRStatus
deriving DecidableEq, Repr

/-- The reviewable state of one ChangeRequest, together with the audit
counters the concurrency claims are about: how many times its mutation has
been applied and how many Snapshots reference it. -/
structure CRState where
  status : CRStatus
  applied : ℕ
  snapshots : ℕ
deriving DecidableEq, Repr

/-- A review call racing on one ChangeRequest id. -/
inductive ReviewCall where
  | approve : ReviewCall
  | reject : ReviewCall
deriving DecidableEq, Repr

/-- Outcome of one review call: success, or the `NotPendingError` raised on
a request that is no longer PENDING. -/
inductive ReviewResult where
  | ok : ReviewResult
  | notPendingError : ReviewResult
deriving DecidableEq, Repr

/-- Modelled from the spec: `submitChange` (§4.4) creates the ChangeRequest
in PENDING status; no mutation has been applied and no Snapshot exists. -/
def submitChange : CRState := ⟨.PENDING, 0, 0⟩

/-- Modelled from the spec: `approve` (§4.4, §5) is guarded by a single
atomic conditional update — only when the current status is PENDING does it
capture the Snapshot, apply the mutation and set APPROVED; otherwise it
fails with `NotPendingError` and changes nothing. -/
def approveCR (s : CRState) : CRState × ReviewResult :=
  if s.status = .PENDING then (⟨.APPROVED, s.applied + 1, s.snapshots + 1⟩, .ok)
  else (s, .notPendingError)

/-- Modelled from the spec: `reject` (§4.4) sets REJECTED under the same
PENDING guard; it performs no mutation and creates no Snapshot. -/
def rejectCR (s : CRState) : CRState × ReviewResult :=
  if s.status = .PENDING then (⟨.REJECTED, s.applied, s.snapshots⟩, .ok)
  else (s, .notPendingError)

/-- Dispatch of one review call. -/
def reviewStep (s : CRState) : ReviewCall → CRState × ReviewResult
  | .approve => approveCR s
  | .reject => rejectCR s

/-- A serialization of racing review calls on one ChangeRequest: because
each call is guarded by the atomic conditional update of §5, any concurrent
execution is equivalent to running the calls in some order. -/
def runReviews : CRState → List ReviewCall → CRState × List ReviewResult
  | s, [] => (s, [])
  | s, c :: cs =>
    let sr := reviewStep s c
    let rest := runReviews sr.1 cs
    (rest.1, sr.2 :: rest.2)

/-! ## SQL templates and parameter substitution -/

/-- The sql template of the products_by_category query
(backend/app/data/queries.json lines 58-70); the `category` placeholder sits
inside a quoted SQL literal. -/
def productsByCategorySql : String :=
  "SELECT id, name, price, category FROM products WHERE category = \x27{category}\x27 ORDER BY price DESC"

/-- JS string coercion of a parameter value. -/
def jsValueText : JsValue → String
  | .vStr s => s
  | .vNum q => toString q
  | .vBool b => if b then "true" else "false"
  | .vNull => "null"

/-- Modelled from the spec: the backend query executor is not among the
sources.  Design note §9 of the spec records that the original query
definitions interpolate placeholder tokens directly into SQL strings, so the
executed SQL text is produced by substituting each parameter value textually
for its placeholder — the same substitution `formatSqlForDisplay` performs
for the SQL preview. -/
def executedSqlText (sqlTemplate : String) (parameters : List (String × JsValue)) : String :=
  parameters.foldl
    (fun acc kv => replaceAll acc ("\x7b" ++ kv.1 ++ "\x7d") (jsValueText kv.2)) sqlTemplate

/-- The display rendering of one parameter value inside
`QueryService.formatSqlForDisplay` (query.service.ts lines 96-99): strings
are wrapped in single quotes with internal quotes doubled. -/
def escapeDisplayValue : JsValue → String
  | .vStr s => "\x27" ++ replaceAll s "\x27" "\x27\x27" ++ "\x27"
  | w => jsValueText w

/-- `QueryService.formatSqlForDisplay` (query.service.ts lines 89-105). -/
def formatSqlForDisplay (sql : String) (parameters : List (String × JsValue)) : String :=
  parameters.foldl
    (fun acc kv => replaceAll acc ("\x7b" ++ kv.1 ++ "\x7d") (escapeDisplayValue kv.2)) sql

/-- A quote-breaking parameter value for the products_by_category query. -/
def sqlInjectionPayload : String := "Electronics\x27; DROP TABLE products; --"

/-! ## Helper lemmas -/

/-- Once a ChangeRequest has left PENDING, every further review call leaves
the state untouched and reports `NotPendingError`. -/
theorem runReviews_not_pending (s : CRState) (cs : List ReviewCall)
    (h : s.status ≠ .PENDING) :
    runReviews s cs = (s, cs.map (fun _ => ReviewResult.notPendingError)) := by
  induction cs with
  | nil => rfl
  | cons c cs ih =>
    have hstep : reviewStep s c = (s, .notPendingError) := by
      cases c <;> simp [reviewStep, approveCR, rejectCR, h]
    simp [runReviews, hstep, ih]

/-- A key outside the keys of a record has no binding in the sanitized
record either. -/
theorem lookup_sanitize_not_mem (data : JsRecord) (k : String)
    (h : k ∉ keysOf data) : lookup (sanitizeRecordData data) k = none := by
  induction data with
  | nil => rfl
  | cons kv rest ih =>
    have hk : kv.1 ≠ k := by
      intro hc; exact h (by simp [keysOf, hc])
    have hrest : k ∉ keysOf rest := by
      intro hc; exact h (by simp [keysOf] at hc ⊢; exact Or.inr hc)
    have ih2 := ih hrest
    cases hs : sanitizeValue kv.1 kv.2 with
    | none => simpa [sanitizeRecordData, List.filterMap_cons, hs] using ih2
    | some w =>
      simpa [sanitizeRecordData, List.filterMap_cons, hs, lookup, beq_iff_eq, hk] using ih2

/-- Looking a key up after sanitization is the same as sanitizing the looked
up value, provided the record has distinct keys (as every JS object does). -/
theorem lookup_sanitize (data : JsRecord) (hnd : (keysOf data).Nodup)
    (k : String) :
    lookup (sanitizeRecordData data) k = (lookup data k).bind (sanitizeValue k) := by
  induction data with
  | nil => rfl
  | cons kv rest ih =>
    have hnm : kv.1 ∉ keysOf rest := (List.nodup_cons.mp hnd).1
    have hnd2 : (keysOf rest).Nodup := (List.nodup_cons.mp hnd).2
    by_cases hk : kv.1 = k
    · subst hk
      cases hs : sanitizeValue kv.1 kv.2 with
      | none =>
        simpa [sanitizeRecordData, List.filterMap_cons, hs, lookup] using
          lookup_sanitize_not_mem rest kv.1 hnm
      | some w => simp [sanitizeRecordData, List.filterMap_cons, hs, lookup]
    · cases hs : sanitizeValue kv.1 kv.2 with
      | none =>
        simpa [sanitizeRecordData, List.filterMap_cons, hs, lookup, beq_iff_eq, hk] using
          ih hnd2
      | some w =>
        simpa [sanitizeRecordData, List.filterMap_cons, hs, lookup, beq_iff_eq, hk] using
          ih hnd2

/-- The `ApprovalService` UPDATE entry is the `DiffViewer` UPDATE entry with
`unchanged` entries suppressed. -/
theorem asUpdateEntry_eq_dv (od nd : JsRecord) (k : String) :
    asUpdateEntry od nd k =
      if (dvUpdateEntry od nd k).type = .unchanged then none
      else some (dvUpdateEntry od nd k) := by
  unfold asUpdateEntry dvUpdateEntry
  cases ho : lookup od k with
  | none =>
    cases hn : lookup nd k with
    | none => simp
    | some b => simp
  | some a =>
    cases hn : lookup nd k with
    | none => simp
    | some b =>
      by_cases hab : a = b
      · subst hab; simp
      · simp [hab]

/-- List form of the previous lemma: over any key list, the
`ApprovalService` entries are the `DiffViewer` entries filtered to the
changed ones. -/
theorem filterMap_as_eq_filter_dv (od nd : JsRecord) (ks : List String) :
    ks.filterMap (asUpdateEntry od nd) =
      (ks.map (dvUpdateEntry od nd)).filter (fun e => e.type != DiffType.unchanged) := by
  induction ks with
  | nil => rfl
  | cons k ks ih =>
    rw [List.filterMap_cons, List.map_cons, List.filter_cons, asUpdateEntry_eq_dv]
    by_cases h : (dvUpdateEntry od nd k).type = .unchanged
    · simp [h, ih]
    · simp [h, ih]

/-- Every branch of the `DiffViewer` UPDATE entry carries the key it was
built from. -/
theorem dvUpdateEntry_field (od nd : JsRecord) (k : String) :
    (dvUpdateEntry od nd k).field = k := by
  unfold dvUpdateEntry
  cases ho : lookup od k with
  | none =>
    cases hn : lookup nd k with
    | none => simp
    | some b => simp
  | some a =>
    cases hn : lookup nd k with
    | none => simp
    | some b =>
      by_cases hab : a = b
      · subst hab; simp
      · simp [hab]

/-! ## Claim theorems -/

/-- C1: when several review calls race on one PENDING ChangeRequest and an
approve wins the race (in particular whenever all racers are approves),
exactly that one call succeeds and applies the mutation; every other
concurrent approve or reject call fails with NotPendingError, and exactly
one Snapshot is created for the ChangeRequest. -/
theorem approve_race_exactly_once (cs : List ReviewCall) :
    (runReviews submitChange (.approve :: cs)).2 =
        .ok :: cs.map (fun _ => ReviewResult.notPendingError)
    ∧ (runReviews submitChange (.approve :: cs)).2.count .ok = 1
    ∧ (runReviews submitChange (.approve :: cs)).1.status = .APPROVED
    ∧ (runReviews submitChange (.approve :: cs)).1.applied = 1
    ∧ (runReviews submitChange (.approve :: cs)).1.snapshots = 1 := by
  have h1 : reviewStep submitChange .approve = (⟨.APPROVED, 1, 1⟩, .ok) := rfl
  have h2 := runReviews_not_pending ⟨.APPROVED, 1, 1⟩ cs (by decide)
  have hrun : runReviews submitChange (.approve :: cs) =
      (⟨.APPROVED, 1, 1⟩, .ok :: cs.map (fun _ => ReviewResult.notPendingError)) := by
    simp [runReviews, h1, h2]
  have hcount : (cs.map (fun _ => ReviewResult.notPendingError)).count ReviewResult.ok = 0 := by
    rw [List.count_eq_zero]
    intro hmem
    rcases List.mem_map.mp hmem with ⟨a, -, hcontra⟩
    exact ReviewResult.noConfusion hcontra
  refine ⟨by rw [hrun], ?_, by rw [hrun], by rw [hrun], by rw [hrun]⟩
  rw [hrun, List.count_cons, hcount]
  simp

/-- C2: a ChangeRequest starts PENDING; approve or reject on a non-PENDING
request always fails with NotPendingError and changes nothing (so APPROVED
and REJECTED are terminal and never reversed, across any further sequence
of calls); from PENDING a review call succeeds and moves the status to
APPROVED or REJECTED, so the status transitions exactly once. -/
theorem changeRequest_status_lifecycle :
    submitChange.status = .PENDING
    ∧ (∀ (s : CRState) (c : ReviewCall),
        s.status ≠ .PENDING → reviewStep s c = (s, .notPendingError))
    ∧ (∀ (s : CRState) (c : ReviewCall),
        s.status = .PENDING →
          (reviewStep s c).2 = .ok ∧
            ((reviewStep s c).1.status = .APPROVED ∨ (reviewStep s c).1.status = .REJECTED))
    ∧ (∀ (s : CRState) (cs : List ReviewCall),
        s.status ≠ .PENDING → (runReviews s cs).1 = s) := by
  refine ⟨rfl, ?_, ?_, ?_⟩
  · intro s c h
    cases c <;> simp [reviewStep, approveCR, rejectCR, h]
  · intro s c h
    cases c <;> simp [reviewStep, approveCR, rejectCR, h]
  · intro s cs h
    rw [runReviews_not_pending s cs h]

/-- Witness for C2 at a concrete non-PENDING state. -/
theorem changeRequest_status_lifecycle_witness :
    reviewStep ⟨.APPROVED, 1, 1⟩ .reject = (⟨.APPROVED, 1, 1⟩, .notPendingError) :=
  changeRequest_status_lifecycle.2.1 ⟨.APPROVED, 1, 1⟩ .reject (by decide)

/-- C3: contrary to the binding invariant, the executed SQL text is built by
raw string interpolation — substituting the quote-breaking payload for the
`category` parameter of products_by_category makes the injected commands
appear verbatim in the SQL text, and the SQL text depends on the
user-supplied value. -/
theorem executedSql_contains_raw_parameter_text :
    includesStr
        (executedSqlText productsByCategorySql [("category", .vStr sqlInjectionPayload)])
        "; DROP TABLE products; --" = true
    ∧ executedSqlText productsByCategorySql [("category", .vStr sqlInjectionPayload)] ≠
        executedSqlText productsByCategorySql [("category", .vStr "Electronics")]
    ∧ includesStr
        (formatSqlForDisplay productsByCategorySql [("category", .vStr "it\x27s")])
        "it\x27\x27s" = true := by
  refine ⟨by decide, by decide, by decide⟩

/-- C7: `isValidEnvironment` accepts exactly the four configured
environment names, and `switchEnvironment` on any other name fails with an
invalid-environment error without issuing a switch request and leaves the
current environment unchanged. -/
theorem environment_enum_and_invalid_switch (e cur : String) :
    (isValidEnvironment e = true ↔ (e = "dev" ∨ e = "test" ∨ e = "stage" ∨ e = "prod"))
    ∧ (¬(e = "dev" ∨ e = "test" ∨ e = "stage" ∨ e = "prod") →
        switchEnvironment cur e = ⟨false, cur, some ("Invalid environment: " ++ e)⟩) := by
  have hiff : isValidEnvironment e = true ↔
      (e = "dev" ∨ e = "test" ∨ e = "stage" ∨ e = "prod") := by
    simp [isValidEnvironment, environmentValues]
  refine ⟨hiff, ?_⟩
  intro hne
  have hfalse : isValidEnvironment e = false := by
    cases hval : isValidEnvironment e
    · rfl
    · exact absurd (hiff.mp hval) hne
  simp [switchEnvironment, hfalse]

/-- Witness for C7 at the invalid name "qa". -/
theorem environment_enum_and_invalid_switch_witness :
    switchEnvironment "dev" "qa" = ⟨false, "dev", some ("Invalid environment: " ++ "qa")⟩ :=
  (environment_enum_and_invalid_switch "qa" "dev").2 (by decide)

/-- C4 counterexample: on the update oldData=(a:1,b:2), newData=(a:1,b:3),
`ApprovalService.generateDiff` does not produce the claimed two-entry diff —
it omits the unchanged entry for field a. -/
theorem update_diff_unchanged_missing_cex :
    asGenerateDiff (some [("a", .vNum 1), ("b", .vNum 2)])
        (some [("a", .vNum 1), ("b", .vNum 3)]) ≠
      [⟨"a", some (.vNum 1), some (.vNum 1), .unchanged⟩,
       ⟨"b", some (.vNum 2), some (.vNum 3), .changed⟩] := by
  decide

/-- C4 amended: the `DiffViewer` diff computation unions the key sets of
oldData and newData (one entry per union key, in order) and classifies every
field, yielding exactly the claimed diff including the unchanged entry for
field a; `ApprovalService.generateDiff` omits unchanged fields and yields
only the changed entry for field b. -/
theorem update_diff_two_implementations :
    dvGenerateDiff .UPDATE (some [("a", .vNum 1), ("b", .vNum 2)])
        (some [("a", .vNum 1), ("b", .vNum 3)]) =
      [⟨"a", some (.vNum 1), some (.vNum 1), .unchanged⟩,
       ⟨"b", some (.vNum 2), some (.vNum 3), .changed⟩]
    ∧ asGenerateDiff (some [("a", .vNum 1), ("b", .vNum 2)])
        (some [("a", .vNum 1), ("b", .vNum 3)]) =
      [⟨"b", some (.vNum 2), some (.vNum 3), .changed⟩]
    ∧ (∀ od nd : JsRecord,
        (dvGenerateDiff .UPDATE (some od) (some nd)).map DiffEntry.field =
          dedupFirst (keysOf od ++ keysOf nd)) := by
  refine ⟨by decide, by decide, ?_⟩
  intro od nd
  simp [dvGenerateDiff, List.map_map, Function.comp_def, dvUpdateEntry_field]

/-- C5: for CREATE the diff computed by either implementation lists every
field of newData, in order, as added with oldValue null; for DELETE it lists
every field of oldData as removed with newValue null; in particular
newData=(x:5) yields exactly the single added entry and oldData=(x:5) the
single removed entry. -/
theorem create_delete_diff_fields :
    (∀ nd : JsRecord,
        (asGenerateDiff none (some nd)).map (fun e => (e.field, e.newValue)) =
            nd.map (fun kv => (kv.1, some kv.2))
        ∧ (∀ e ∈ asGenerateDiff none (some nd), e.type = .added ∧ e.oldValue = some .vNull)
        ∧ dvGenerateDiff .CREATE none (some nd) = asGenerateDiff none (some nd))
    ∧ (∀ od : JsRecord,
        (asGenerateDiff (some od) none).map (fun e => (e.field, e.oldValue)) =
            od.map (fun kv => (kv.1, some kv.2))
        ∧ (∀ e ∈ asGenerateDiff (some od) none, e.type = .removed ∧ e.newValue = some .vNull)
        ∧ dvGenerateDiff .DELETE (some od) none = asGenerateDiff (some od) none)
    ∧ asGenerateDiff none (some [("x", .vNum 5)]) =
        [⟨"x", some .vNull, some (.vNum 5), .added⟩]
    ∧ asGenerateDiff (some [("x", .vNum 5)]) none =
        [⟨"x", some (.vNum 5), some .vNull, .removed⟩]
    ∧ dvGenerateDiff .CREATE none (some [("x", .vNum 5)]) =
        [⟨"x", some .vNull, some (.vNum 5), .added⟩]
    ∧ dvGenerateDiff .DELETE (some [("x", .vNum 5)]) none =
        [⟨"x", some (.vNum 5), some .vNull, .removed⟩] := by
  refine ⟨?_, ?_, by decide, by decide, by decide, by decide⟩
  · intro nd
    refine ⟨?_, ?_, rfl⟩
    · simp [asGenerateDiff, List.map_map, Function.comp_def]
    · intro e he
      rcases List.mem_map.mp he with ⟨kv, -, rfl⟩
      exact ⟨rfl, rfl⟩
  · intro od
    refine ⟨?_, ?_, rfl⟩
    · simp [asGenerateDiff, List.map_map, Function.comp_def]
    · intro e he
      rcases List.mem_map.mp he with ⟨kv, -, rfl⟩
      exact ⟨rfl, rfl⟩

/-- Witness for C5 at the concrete CREATE record (x:5): the single diff
entry is classified added with oldValue null. -/
theorem create_delete_diff_fields_witness :
    (⟨"x", some .vNull, some (.vNum 5), .added⟩ : DiffEntry).type = DiffType.added
    ∧ (⟨"x", some .vNull, some (.vNum 5), .added⟩ : DiffEntry).oldValue = some .vNull :=
  (create_delete_diff_fields.1 [("x", .vNum 5)]).2.1
    ⟨"x", some .vNull, some (.vNum 5), .added⟩ (by decide)

/-- C8 counterexample: the two diff implementations disagree on the update
oldData=(a:1), newData=(a:1) — the DiffViewer emits an unchanged entry, the
ApprovalService emits nothing. -/
theorem diff_implementations_disagree_cex :
    asGenerateDiff (some [("a", .vNum 1)]) (some [("a", .vNum 1)]) ≠
      dvGenerateDiff .UPDATE (some [("a", .vNum 1)]) (some [("a", .vNum 1)]) := by
  decide

/-- C8 amended: on CREATE and DELETE inputs the two implementations produce
identical diffs; on UPDATE inputs `ApprovalService.generateDiff` equals the
`DiffViewer` diff with its unchanged entries filtered out (the filtering the
DiffViewer itself applies to obtain its changedFields list). -/
theorem diff_implementations_agree_up_to_unchanged (od nd : JsRecord) :
    asGenerateDiff none (some nd) = dvGenerateDiff .CREATE none (some nd)
    ∧ asGenerateDiff (some od) none = dvGenerateDiff .DELETE (some od) none
    ∧ asGenerateDiff (some od) (some nd) =
        (dvGenerateDiff .UPDATE (some od) (some nd)).filter
          (fun e => e.type != DiffType.unchanged) := by
  refine ⟨rfl, rfl, ?_⟩
  simpa [asGenerateDiff, dvGenerateDiff] using
    filterMap_as_eq_filter_dv od nd (dedupFirst (keysOf od ++ keysOf nd))

/-- A numeric value is never caught by the emptiness test of
`validateParameter`, so it goes straight to the typed checks. -/
theorem validateParameter_num (p : QueryParam) (q : ℚ) :
    validateParameter p (some (.vNum q)) = validateParamValue p (.vNum q) := by
  simp [validateParameter]

/-- `parseInt` is the identity on integral numbers. -/
theorem jsParseInt_den_one (q : ℚ) (h : q.den = 1) :
    jsParseInt (.vNum q) = some q.num := by
  simp [jsParseInt, jsTrunc, h, Int.tdiv_one]

/-- C6: for a parameter with a declared max (and any declared min not above
it), validation of integer and decimal values rejects any value strictly
above the max with the max-naming message and any value strictly below a
declared min with the min-naming message, accepts the boundary values min
and max themselves, and `validateParameters` records the failure keyed by
the offending parameter name. -/
theorem validateParameter_min_max (p : QueryParam) (M : ℚ)
    (hmax : p.max = some M) (hminM : ∀ m, p.min = some m → m ≤ M) :
    (p.ptype = .decimal →
      (∀ q : ℚ, M < q →
        validateParameter p (some (.vNum q)) = some ("Must be at most " ++ toString M))
      ∧ (∀ m q : ℚ, q < m → p.min = some m →
        validateParameter p (some (.vNum q)) = some ("Must be at least " ++ toString m))
      ∧ validateParameter p (some (.vNum M)) = none
      ∧ (∀ m : ℚ, p.min = some m → validateParameter p (some (.vNum m)) = none))
    ∧ (p.ptype = .integer →
      (∀ q : ℚ, q.den = 1 → M < q →
        validateParameter p (some (.vNum q)) = some ("Must be at most " ++ toString M))
      ∧ (∀ m q : ℚ, q.den = 1 → q < m → p.min = some m →
        validateParameter p (some (.vNum q)) = some ("Must be at least " ++ toString m))
      ∧ (M.den = 1 → validateParameter p (some (.vNum M)) = none)
      ∧ (∀ m : ℚ, p.min = some m → m.den = 1 →
        validateParameter p (some (.vNum m)) = none))
    ∧ (∀ (ps : List QueryParam) (vals : String → Option JsValue) (e : String),
        p ∈ ps → validateParameter p (vals p.name) = some e →
        (p.name, e) ∈ validateParameters ps vals) := by
  have hcore : ∀ x : ℚ,
      (M < x → (match minCheck x p.min with
                | some e => some e
                | none => maxCheck x p.max) = some ("Must be at most " ++ toString M))
      ∧ (∀ m, x < m → p.min = some m →
          (match minCheck x p.min with
           | some e => some e
           | none => maxCheck x p.max) = some ("Must be at least " ++ toString m))
      ∧ (x ≤ M → (∀ m, p.min = some m → m ≤ x) →
          (match minCheck x p.min with
           | some e => some e
           | none => maxCheck x p.max) = none) := by
    intro x
    refine ⟨?_, ?_, ?_⟩
    · intro hx
      cases hpm : p.min with
      | none => simp [minCheck, maxCheck, hmax, hx]
      | some m =>
        have hnm : ¬ x < m := not_lt.mpr ((hminM m hpm).trans hx.le)
        simp [minCheck, maxCheck, hpm, hnm, hmax, hx]
    · intro m hxm hpm
      simp [minCheck, hpm, hxm]
    · intro hle hmin
      cases hpm : p.min with
      | none => simp [minCheck, maxCheck, hmax, not_lt.mpr hle]
      | some m =>
        simp [minCheck, maxCheck, hpm, hmax, not_lt.mpr hle, not_lt.mpr (hmin m hpm)]
  refine ⟨?_, ?_, ?_⟩
  · intro hty
    have hv : ∀ q : ℚ, validateParamValue p (.vNum q) =
        (match minCheck q p.min with
         | some e => some e
         | none => maxCheck q p.max) := by
      intro q; simp [validateParamValue, hty, jsParseFloat]
    refine ⟨?_, ?_, ?_, ?_⟩
    · intro q hq; rw [validateParameter_num, hv]; exact (hcore q).1 hq
    · intro m q hqm hpm; rw [validateParameter_num, hv]; exact (hcore q).2.1 m hqm hpm
    · rw [validateParameter_num, hv]
      exact (hcore M).2.2 le_rfl (fun m hm => hminM m hm)
    · intro m hpm; rw [validateParameter_num, hv]
      refine (hcore m).2.2 (hminM m hpm) ?_
      intro m' hm'
      rw [hpm] at hm'
      injection hm' with h1
      rw [h1]
  · intro hty
    have hv : ∀ q : ℚ, q.den = 1 → validateParamValue p (.vNum q) =
        (match minCheck q p.min with
         | some e => some e
         | none => maxCheck q p.max) := by
      intro q hq
      have h2 : (q.num : ℚ) = q := Rat.coe_int_num_of_den_eq_one hq
      simp [validateParamValue, hty, jsParseInt_den_one q hq, h2]
    refine ⟨?_, ?_, ?_, ?_⟩
    · intro q hden hq; rw [validateParameter_num, hv q hden]; exact (hcore q).1 hq
    · intro m q hden hqm hpm
      rw [validateParameter_num, hv q hden]
      exact (hcore q).2.1 m hqm hpm
    · intro hden
      rw [validateParameter_num, hv M hden]
      exact (hcore M).2.2 le_rfl (fun m hm => hminM m hm)
    · intro m hpm hden
      rw [validateParameter_num, hv m hden]
      refine (hcore m).2.2 (hminM m hpm) ?_
      intro m' hm'
      rw [hpm] at hm'
      injection hm' with h1
      rw [h1]
  · intro ps vals e hp he
    refine List.mem_filterMap.mpr ⟨p, hp, ?_⟩
    rw [he]
    rfl

/-- Witness for C6 at the days parameter of the users_recent query
(integer, min 1, max 365): 366 is rejected naming the max, the boundary
values 365 and 1 are accepted, 0 is rejected naming the min, and the
failure is recorded under the parameter name. -/
theorem validateParameter_min_max_witness :
    validateParameter ⟨"days", .integer, false, some (.vNum 30), some 1, some 365, none, none⟩
        (some (.vNum 366)) = some ("Must be at most " ++ toString (365 : ℚ))
    ∧ validateParameter ⟨"days", .integer, false, some (.vNum 30), some 1, some 365, none, none⟩
        (some (.vNum 365)) = none
    ∧ validateParameter ⟨"days", .integer, false, some (.vNum 30), some 1, some 365, none, none⟩
        (some (.vNum 1)) = none
    ∧ validateParameter ⟨"days", .integer, false, some (.vNum 30), some 1, some 365, none, none⟩
        (some (.vNum 0)) = some ("Must be at least " ++ toString (1 : ℚ))
    ∧ ("days", "Must be at most " ++ toString (365 : ℚ)) ∈
        validateParameters
          [⟨"days", .integer, false, some (.vNum 30), some 1, some 365, none, none⟩]
          (fun _ => some (.vNum 366)) := by
  have h := validateParameter_min_max
      ⟨"days", .integer, false, some (.vNum 30), some 1, some 365, none, none⟩ 365 rfl
      (fun m hm => by injection hm with h1; rw [← h1]; decide)
  have hi := h.2.1 rfl
  refine ⟨hi.1 366 (by decide) (by decide), hi.2.2.1 (by decide),
          hi.2.2.2 1 rfl (by decide), hi.2.1 1 0 (by decide) (by decide) rfl, ?_⟩
  exact h.2.2 _ _ _ (List.mem_singleton.mpr rfl) (hi.1 366 (by decide) (by decide))

/-- C9: `sanitizeRecordData` introduces no key not present in the input,
drops every key whose value is the empty string or null, converts every
retained string value that parses as a number under a key whose lowercased
name contains price or id into that number, and passes every other retained
value through unchanged. -/
theorem sanitizeRecordData_shape (data : JsRecord)
    (hnd : (keysOf data).Nodup) (k : String) :
    (lookup data k = none → lookup (sanitizeRecordData data) k = none)
    ∧ (∀ v, lookup data k = some v → (v = .vStr "" ∨ v = .vNull) →
        lookup (sanitizeRecordData data) k = none)
    ∧ (∀ (s : String) (q : ℚ), lookup data k = some (.vStr s) → s ≠ "" →
        jsNumberOfString s = some q → priceOrId k = true →
        lookup (sanitizeRecordData data) k = some (.vNum q))
    ∧ (∀ v, lookup data k = some v → v ≠ .vStr "" → v ≠ .vNull →
        (∀ s, v = .vStr s → jsNumberOfString s = none ∨ priceOrId k = false) →
        lookup (sanitizeRecordData data) k = some v) := by
  have key := lookup_sanitize data hnd k
  refine ⟨?_, ?_, ?_, ?_⟩
  · intro h; rw [key, h]; rfl
  · intro v hv hdrop
    rw [key, hv]
    rcases hdrop with h | h <;> subst h <;> simp [sanitizeValue]
  · intro s q hv hs hq hp
    rw [key, hv]
    simp [sanitizeValue, hs, hq, hp]
  · intro v hv hne hnn hother
    rw [key, hv]
    cases v with
    | vStr s =>
      have hs : s ≠ "" := by
        intro hc; exact hne (by rw [hc])
      rcases hother s rfl with h | h
      · simp [sanitizeValue, hs, h]
      · cases hq : jsNumberOfString s with
        | none => simp [sanitizeValue, hs, hq]
        | some q => simp [sanitizeValue, hs, hq, h]
    | vNull => exact absurd rfl hnn
    | vBool b => simp [sanitizeValue]
    | vNum q => simp [sanitizeValue]

/-- Witness for C9 on a concrete form record: the empty note and the null
legacy field are dropped, the numeric product_id string becomes a number,
and the name passes through unchanged. -/
theorem sanitizeRecordData_shape_witness :
    lookup (sanitizeRecordData
        [("product_id", .vStr "42"), ("name", .vStr "Desk"),
         ("note", .vStr ""), ("legacy", .vNull)]) "note" = none
    ∧ lookup (sanitizeRecordData
        [("product_id", .vStr "42"), ("name", .vStr "Desk"),
         ("note", .vStr ""), ("legacy", .vNull)]) "product_id" = some (.vNum 42)
    ∧ lookup (sanitizeRecordData
        [("product_id", .vStr "42"), ("name", .vStr "Desk"),
         ("note", .vStr ""), ("legacy", .vNull)]) "name" = some (.vStr "Desk") := by
  refine ⟨?_, ?_, ?_⟩
  · exact (sanitizeRecordData_shape _ (by decide) "note").2.1 (.vStr "") (by decide)
      (Or.inl rfl)
  · exact (sanitizeRecordData_shape _ (by decide) "product_id").2.2.1 "42" 42 (by decide)
      (by decide) (by decide) (by decide)
  · exact (sanitizeRecordData_shape _ (by decide) "name").2.2.2 (.vStr "Desk") (by decide)
      (by decide) (by decide)
      (fun s hs => by injection hs with h1; subst h1; exact Or.inr (by decide))

/-- C10: `validateRecordData` reports a required error for every required
field whose value is falsy — which includes the number 0 and the boolean
false besides missing, null and empty-string values — and its validity flag
holds exactly when the collected error list is empty. -/
theorem validateRecordData_falsy_required (data : JsRecord) (req : List String) :
    (∀ f, f ∈ req → isFalsy (lookup data f) = true →
        (f ++ " is required") ∈ (validateRecordData data req).2)
    ∧ ((validateRecordData data req).1 = true ↔ (validateRecordData data req).2 = [])
    ∧ isFalsy (some (.vNum 0)) = true
    ∧ isFalsy (some (.vBool false)) = true
    ∧ isFalsy none = true
    ∧ isFalsy (some .vNull) = true
    ∧ isFalsy (some (.vStr "")) = true := by
  refine ⟨?_, ?_, by decide, by decide, by decide, by decide, by decide⟩
  · intro f hf hfal
    refine List.mem_append_left _ (List.mem_filterMap.mpr ⟨f, hf, ?_⟩)
    simp [hfal]
  · simp [validateRecordData, List.isEmpty_iff]

/-- Witness for C10: a required count of 0 and a required false flag are
both reported as missing, and the record is invalid. -/
theorem validateRecordData_falsy_required_witness :
    ("count is required") ∈
      (validateRecordData [("count", .vNum 0), ("active", .vBool false)]
        ["count", "active"]).2
    ∧ ("active is required") ∈
      (validateRecordData [("count", .vNum 0), ("active", .vBool false)]
        ["count", "active"]).2 :=
  ⟨(validateRecordData_falsy_required _ _).1 "count" (by decide) (by decide),
   (validateRecordData_falsy_required _ _).1 "active" (by decide) (by decide)⟩

end AdminDb
